import Mathlib

/-!
Verification development for the MRTODP task-orchestration core.

The definitions below are a shallow embedding of the C++/C sources:
* `backend/cpp/task_manager/orchestrator.cpp` (class `Orchestrator`),
* `backend/cpp/robot_interface/interface.cpp` (class `RobotInterface`),
* `backend/c/drivers/driver.c` (function `execute_on_robot`).

Modelling conventions:
* `std::map` becomes an association list over `String` keys kept in strictly
  ascending key order (the `std::map` iteration-order invariant); lookups are
  `alookup`, and the default-inserting `operator[]` read becomes `tableBracket`
  (which may insert a fresh key bound to the default value, in sorted position).
* The SQLite tasks table becomes an in-memory ledger `List TaskRow` together
  with the next AUTOINCREMENT id; a successful `INSERT` appends a row with the
  generated id.
* Thrown exceptions become `Except` errors; each `throw` site of the source is
  mapped to one constructor of `OrchError` (the human-readable message strings
  of the source are summarised by the constructor arguments).
* The ZeroMQ round trip to the AI engine is an oracle parameter
  `AdvisoryOutcome`: either a recommended robot id, or one of the two failure
  modes the source throws before its catch-all fallback (no response /
  transport error, and a response without a string `robot_id` field).
* Side effects of `delegateTask` are made explicit in `DelegateResult`: the
  returned value (C++ `void`, hence `Unit`), the new state, the number of
  advisory requests issued, and the messages published on `/mrtodp/tasks`.
-/

deriving instance DecidableEq for Except

/-- Association-list lookup, modelling `std::map::find` / `std::map::at`. -/
def alookup {α : Type} : List (String × α) → String → Option α
  | [], _ => none
  | p :: rest, k => if p.1 = k then some p.2 else alookup rest k

/-- Sorted insertion of a key/value pair, modelling the position at which
`std::map::operator[]` places a fresh key.  If the key is already present the
existing binding is kept (matching `operator[]` on a present key). -/
def insortKV {α : Type} : List (String × α) → String → α → List (String × α)
  | [], k, v => [(k, v)]
  | (k0, v0) :: rest, k, v =>
    if k < k0 then (k, v) :: (k0, v0) :: rest
    else if k = k0 then (k0, v0) :: rest
    else (k0, v0) :: insortKV rest k v

/-- A robot's capability map: capability name to integer strength
(`std::map<std::string, int>`). -/
abbrev CapMap := List (String × Int)

/-- The capability table: robot id to capability map
(`Orchestrator::robot_capabilities_`). -/
abbrev CapTable := List (String × CapMap)

/-- The configured capability table of `orchestrator.cpp` lines 31-34,
in `std::map` (ascending-key) order. -/
def configuredCaps : CapTable :=
  [("Ford", [("heavy_lifting", 90), ("navigation", 70)]),
   ("Scion", [("delicate_task", 85), ("navigation", 80)])]

/-- A row of the SQLite `tasks` table (the `created_at` column, a wall-clock
timestamp, is outside the model). -/
structure TaskRow where
  id : Nat
  task_type : String
  robot_id : String
  status : String
  deriving DecidableEq, Repr

/-- Orchestrator state: the capability table (mutable in the source, see
`tableBracket`), the ledger rows, and the next AUTOINCREMENT id. -/
structure OrchState where
  caps : CapTable
  ledger : List TaskRow
  nextId : Nat
  deriving DecidableEq, Repr

/-- Outcome of the ZeroMQ request to the AI engine, as distinguished by the
throw sites of `Orchestrator::queryAIEngine`: a recommendation, or a timeout /
transport failure (`"No response from AI engine"` or a thrown zmq error), or a
parseable reply without a string `robot_id` field. -/
inductive AdvisoryOutcome where
  | ok (robot_id : String)
  | unavailable
  | protocolError
  deriving DecidableEq, Repr

/-- One constructor per `throw` site of `orchestrator.cpp` that can escape to
the caller of `delegateTask` / `getTaskStatus`. -/
inductive OrchError where
  | validationError
  | noCapableRobot (task_type : String)
  | unknownRobot (robot_id : String)
  | insufficientCapability (robot_id capability : String)
  | notFound (task_id : Nat)
  deriving DecidableEq, Repr

/-- Accumulator step of the selection loop of
`Orchestrator::selectRobotByCapability` (lines 94-99): keep the current best
`(robot, score)` and replace it only on a strictly greater score. -/
def bestStep (task_type : String) (acc : String × Int) (p : String × CapMap) :
    String × Int :=
  match alookup p.2 task_type with
  | some s => if s > acc.2 then (p.1, s) else acc
  | none => acc

/-- `Orchestrator::selectRobotByCapability` (lines 91-104): fold the capability
table in `std::map` order starting from `("", 0)`; an empty best robot at the
end means the `"No robot found with capability"` throw. -/
def selectRobotByCapability (caps : CapTable) (task_type : String) :
    Except OrchError String :=
  let best := caps.foldl (bestStep task_type) ("", 0)
  if best.1 = "" then .error (.noCapableRobot task_type) else .ok best.1

/-- `Orchestrator::queryAIEngine` (lines 64-88): on any advisory failure the
catch-all handler falls back to `selectRobotByCapability`; a fallback failure
propagates out of the catch block. -/
def queryAIEngine (adv : AdvisoryOutcome) (caps : CapTable)
    (task_type : String) : Except OrchError String :=
  match adv with
  | .ok robot_id => .ok robot_id
  | .unavailable => selectRobotByCapability caps task_type
  | .protocolError => selectRobotByCapability caps task_type

/-- The double `operator[]` read `robot_capabilities_[robot_id][capability]`
(lines 175 and 178): returns the stored strength, default-inserting missing
keys with value `0` (a missing robot gets an empty inner map first), and the
possibly grown table. -/
def tableBracket (caps : CapTable) (robot_id capability : String) :
    Int × CapTable :=
  match alookup caps robot_id with
  | some inner =>
    match alookup inner capability with
    | some v => (v, caps)
    | none => (0, caps.map (fun p =>
        if p.1 = robot_id then (p.1, insortKV p.2 capability 0) else p))
  | none => (0, insortKV caps robot_id [(capability, 0)])

/-- The two hardcoded minimum-strength checks of `Orchestrator::delegateTask`
(lines 175-180).  The two `if`s of the source test `task_type` against the two
distinct literals, so at most one can fire; the check reads the strength with
`operator[]`, which may insert a zero entry, also on the throwing path. -/
def minStrengthCheckSrc (caps : CapTable) (robot_id task_type : String) :
    Except OrchError Unit × CapTable :=
  if task_type = "heavy_lifting" then
    let p := tableBracket caps robot_id "heavy_lifting"
    (if p.1 < 50 then .error (.insufficientCapability robot_id "heavy_lifting")
     else .ok (), p.2)
  else if task_type = "delicate_task" then
    let p := tableBracket caps robot_id "delicate_task"
    (if p.1 < 50 then .error (.insufficientCapability robot_id "delicate_task")
     else .ok (), p.2)
  else (.ok (), caps)

/-- Observable result of one `delegateTask` call: the returned value (the C++
function returns `void`), the state afterwards, how many advisory requests were
issued, and the messages published on `/mrtodp/tasks` (robot id, task type). -/
structure DelegateResult where
  outcome : Except OrchError Unit
  state : OrchState
  advisoryCalls : Nat
  published : List (String × String)
  deriving DecidableEq, Repr

/-- `Orchestrator::delegateTask` (lines 157-195): validate, select a robot
(advisory with capability-table fallback), check the robot is known, apply the
two hardcoded strength checks, insert the `assigned` row, publish the task.
The wrapping of escaping exception messages (`"AI engine query failed: ..."`,
`"Failed to store task: ..."`) keeps the underlying error, so errors are
propagated unchanged; the in-memory ledger insert always succeeds. -/
def delegateTask (adv : AdvisoryOutcome) (st : OrchState) (task_type : String) :
    DelegateResult :=
  if task_type = "" then
    ⟨.error .validationError, st, 0, []⟩
  else
    match queryAIEngine adv st.caps task_type with
    | .error e => ⟨.error e, st, 1, []⟩
    | .ok robot_id =>
      if (alookup st.caps robot_id).isNone then
        ⟨.error (.unknownRobot robot_id), st, 1, []⟩
      else
        let chk := minStrengthCheckSrc st.caps robot_id task_type
        match chk.1 with
        | .error e => ⟨.error e, { st with caps := chk.2 }, 1, []⟩
        | .ok _ =>
          ⟨.ok (),
           { caps := chk.2,
             ledger := st.ledger ++ [⟨st.nextId, task_type, robot_id, "assigned"⟩],
             nextId := st.nextId + 1 },
           1, [(robot_id, task_type)]⟩

/-- `Orchestrator::getTaskStatus` (lines 198-233): the rows with the given id
(`SELECT ... WHERE id = ?`); an empty result set is the `"Task ID ... not
found"` throw. -/
def getTaskStatus (st : OrchState) (task_id : Nat) :
    Except OrchError (List TaskRow) :=
  let rows := st.ledger.filter (fun r => r.id == task_id)
  if rows.isEmpty then .error (.notFound task_id) else .ok rows

/-- The strength actually stored for a robot and capability, if any. -/
def strengthLookup (caps : CapTable) (robot_id capability : String) :
    Option Int :=
  (alookup caps robot_id).bind (fun inner => alookup inner capability)

/-- The strength read by the source's checks: stored value, `0` when the robot
lacks the capability (the `operator[]` default). -/
def strengthOf (caps : CapTable) (robot_id capability : String) : Int :=
  match alookup caps robot_id with
  | some inner => (alookup inner capability).getD 0
  | none => 0

/-- Modelled from the spec: the configurable minimum-strength policy, a mapping
capability to minimum strength, default `0` for capabilities not listed. -/
def specMinStrength (policy : List (String × Int)) (capability : String) : Int :=
  (alookup policy capability).getD 0

/-- Modelled from the spec: the reference policy, i.e. the two hardcoded
entries of `delegateTask`. -/
def referencePolicy : List (String × Int) :=
  [("heavy_lifting", 50), ("delicate_task", 50)]

/-- Modelled from the spec: `delegate` with the two hardcoded checks
generalised into one configurable minimum-strength policy (spec section 4.3,
step 4); the policy check reads the stored strength without mutating the
table.  To be compared with `delegateTask`. -/
def delegateWithPolicy (policy : List (String × Int)) (adv : AdvisoryOutcome)
    (st : OrchState) (task_type : String) : DelegateResult :=
  if task_type = "" then
    ⟨.error .validationError, st, 0, []⟩
  else
    match queryAIEngine adv st.caps task_type with
    | .error e => ⟨.error e, st, 1, []⟩
    | .ok robot_id =>
      if (alookup st.caps robot_id).isNone then
        ⟨.error (.unknownRobot robot_id), st, 1, []⟩
      else if strengthOf st.caps robot_id task_type
          < specMinStrength policy task_type then
        ⟨.error (.insufficientCapability robot_id task_type), st, 1, []⟩
      else
        ⟨.ok (),
         { caps := st.caps,
           ledger := st.ledger ++ [⟨st.nextId, task_type, robot_id, "assigned"⟩],
           nextId := st.nextId + 1 },
         1, [(robot_id, task_type)]⟩

/-- The orchestrator state at process startup with a given capability table
and an empty ledger (SQLite AUTOINCREMENT starts at 1). -/
def initialState (caps : CapTable) : OrchState := ⟨caps, [], 1⟩

/-- Well-formedness of a capability table per the data model: all stored
strengths are non-negative (the spec constrains strengths to `[0, 100]`). -/
def capsNonneg (caps : CapTable) : Prop :=
  ∀ p ∈ caps, ∀ q ∈ p.2, (0 : Int) ≤ q.2

instance (caps : CapTable) : Decidable (capsNonneg caps) := by
  unfold capsNonneg
  infer_instance

/-- Errors of `RobotInterface::sendToRobot` (`interface.cpp`), one constructor
per throw site: no loaded driver (UnknownRobot), no language mapping,
unsupported robot language (UnknownDialect), and non-zero driver return code
(BackendExecutionError carrying the response buffer). -/
inductive IfaceError where
  | noDriver (robot_id : String)
  | noLanguage (robot_id : String)
  | unsupportedLanguage (language : String)
  | driverFailure (robot_id : String) (response : String)
  deriving DecidableEq, Repr

/-- A loaded driver handle, i.e. the resolved `execute_task` entry point:
command string to (return code, response buffer). -/
abbrev DriverFn := String → Int × String

/-- The configured robot-to-driver mapping (`interface.cpp` lines 32-35). -/
def robot_driver_map : List (String × String) :=
  [("Ford", "backend/c/drivers/ford_driver.so"),
   ("Scion", "backend/assembly/drivers/scion_driver.so")]

/-- The configured robot-to-language mapping (`interface.cpp` lines 36-39). -/
def robot_language_map : List (String × String) :=
  [("Ford", "KRL"), ("Scion", "RAPID")]

/-- The driver-loading loop of the `RobotInterface` constructor (lines
124-134): each robot's load attempt sits in its own try/catch, so a failure
only skips that robot's handle and the loop continues.  The combined outcome
of `std::filesystem::exists` and `dlopen` for a robot is the oracle `loadOk`;
a successful load binds the robot's entry point `drv robot_id`. -/
def loadDrivers (drivers : List (String × String)) (loadOk : String → Bool)
    (drv : String → DriverFn) : List (String × DriverFn) :=
  drivers.foldl (fun acc p =>
    if loadOk p.1 then acc ++ [(p.1, drv p.1)] else acc) []

/-- `RobotInterface::isRobotAvailable` (lines 147-150). -/
def isRobotAvailable (driver_handles : List (String × DriverFn))
    (language_map : List (String × String)) (robot_id : String) : Bool :=
  (alookup driver_handles robot_id).isSome &&
    (alookup language_map robot_id).isSome

/-- The dialect translation of `RobotInterface::sendToRobot` (lines 72-82). -/
def formatCommand (language task_data : String) : Except IfaceError String :=
  if language = "KRL" then .ok ("KRL_EXEC(" ++ task_data ++ ")")
  else if language = "RAPID" then .ok ("RAPID_EXEC(" ++ task_data ++ ")")
  else if language = "KAREL" ∨ language = "VAL3" then
    .ok (language ++ "_EXEC(" ++ task_data ++ ")")
  else .error (.unsupportedLanguage language)

/-- `RobotInterface::sendToRobot` (lines 61-98): look up the driver handle,
look up the language, translate the task into the dialect command, invoke the
driver's `execute_task`, fail on a non-zero return code, and otherwise return
the response buffer (which the source also publishes on `/mrtodp/responses`). -/
def sendToRobot (driver_handles : List (String × DriverFn))
    (language_map : List (String × String)) (robot_id task_data : String) :
    Except IfaceError String :=
  match alookup driver_handles robot_id with
  | none => .error (.noDriver robot_id)
  | some exec =>
    match alookup language_map robot_id with
    | none => .error (.noLanguage robot_id)
    | some language =>
      match formatCommand language task_data with
      | .error e => .error e
      | .ok command =>
        let r := exec command
        if r.1 ≠ 0 then .error (.driverFailure robot_id r.2)
        else .ok r.2

/-- Response object of `driver.c`. -/
structure DriverResponse where
  status : String
  message : String
  deriving DecidableEq, Repr

/-- `execute_on_robot` of `driver.c` (lines 92-115): dialect-keyed execution
whose message echoes the robot id and the command; the integer is the C
return value (1 on success, 0 on unsupported format). -/
def execute_on_robot (robot_id format command : String) :
    DriverResponse × Int :=
  if format = "KRL" then
    (⟨"success", "KRL executed for " ++ robot_id ++ ": " ++ command⟩, 1)
  else if format = "RAPID" then
    (⟨"success", "RAPID executed for " ++ robot_id ++ ": " ++ command⟩, 1)
  else if format = "KAREL" then
    (⟨"success", "KAREL executed for " ++ robot_id ++ ": " ++ command⟩, 1)
  else if format = "VAL3" then
    (⟨"success", "VAL3 executed for " ++ robot_id ++ ": " ++ command⟩, 1)
  else (⟨"error", "Unsupported format: " ++ format⟩, 0)

/-- Modelled from the spec: the compiled per-robot driver `ford_driver.so`
(whose `execute_task` symbol `sendToRobot` resolves) is not among the
sources; per the backend contract (spec sections 4.4 and 6) it invokes the
dialect executor with the robot's id and configured format and reports
success as a zero return code together with the executor's message. -/
def fordExecuteTask : DriverFn := fun command =>
  let r := execute_on_robot "Ford" "KRL" command
  (if r.2 = 1 then 0 else 1, r.1.message)

/-- `sub` occurs as a contiguous substring of `s`. -/
def containsSub (s sub : String) : Prop := ∃ p q, s = p ++ sub ++ q

example :
    delegateTask .unavailable (initialState configuredCaps) "heavy_lifting"
      = ⟨.ok (), ⟨configuredCaps, [⟨1, "heavy_lifting", "Ford", "assigned"⟩], 2⟩,
         1, [("Ford", "heavy_lifting")]⟩ := by decide

example :
    selectRobotByCapability configuredCaps "navigation" = .ok "Scion" := by
  decide

example :
    (delegateTask (.ok "Scion") (initialState configuredCaps)
        "heavy_lifting").outcome
      = .error (.insufficientCapability "Scion" "heavy_lifting") := by decide

/-- C6: `delegateTask ""` is rejected by the leading emptiness check with the
`"Task type cannot be empty"` throw (ValidationError) before anything else
runs: the state is unchanged, no advisory request is issued, and nothing is
published on the task channel. -/
theorem delegate_empty_task_validation_error
    (adv : AdvisoryOutcome) (st : OrchState) :
    delegateTask adv st "" = ⟨.error .validationError, st, 0, []⟩ := rfl

lemma delegateTask_ok_spec (adv : AdvisoryOutcome) (st : OrchState)
    (t : String) (h : (delegateTask adv st t).outcome = .ok ()) :
    t ≠ "" ∧ ∃ robot, queryAIEngine adv st.caps t = .ok robot ∧
      (alookup st.caps robot).isSome = true ∧
      (delegateTask adv st t).state.ledger
        = st.ledger ++ [⟨st.nextId, t, robot, "assigned"⟩] ∧
      (delegateTask adv st t).state.nextId = st.nextId + 1 ∧
      (delegateTask adv st t).published = [(robot, t)] := by
  by_cases ht : t = ""
  · rw [ht] at h
    simp [delegateTask] at h
  · refine ⟨ht, ?_⟩
    rcases hq : queryAIEngine adv st.caps t with e | robot
    · simp [delegateTask, ht, hq] at h
    · refine ⟨robot, rfl, ?_⟩
      rcases hk : alookup st.caps robot with _ | inner
      · simp [delegateTask, ht, hq, hk] at h
      · rcases hc : (minStrengthCheckSrc st.caps robot t).1 with e | u
        · simp [delegateTask, ht, hq, hk, hc] at h
        · refine ⟨rfl, ?_, ?_, ?_⟩ <;>
            simp [delegateTask, ht, hq, hk, hc]

/-- C2 (counterexample): `Orchestrator::delegateTask` returns `void`; its only
success value is `()`, so the caller-visible return value cannot determine the
appended record.  Two successful delegations that append different records
return the same value, so no reading of the return value recovers the
TaskRecord (or its generated id), falsifying "obtains the record's generated
id, and returns the TaskRecord to the caller". -/
theorem delegate_returns_no_record_cex :
    (delegateTask .unavailable (initialState configuredCaps)
        "heavy_lifting").outcome = .ok () ∧
    (delegateTask .unavailable (initialState configuredCaps)
        "navigation").outcome = .ok () ∧
    (delegateTask .unavailable (initialState configuredCaps)
        "heavy_lifting").state.ledger
      = [⟨1, "heavy_lifting", "Ford", "assigned"⟩] ∧
    (delegateTask .unavailable (initialState configuredCaps)
        "navigation").state.ledger
      = [⟨1, "navigation", "Scion", "assigned"⟩] ∧
    ¬ ∃ recOf : Except OrchError Unit → TaskRow,
        ∀ t r,
          (delegateTask .unavailable (initialState configuredCaps)
              t).state.ledger = [r] →
          recOf (delegateTask .unavailable (initialState configuredCaps)
              t).outcome = r := by
  refine ⟨by decide, by decide, by decide, by decide, ?_⟩
  rintro ⟨recOf, hrec⟩
  have h1 := hrec "heavy_lifting" ⟨1, "heavy_lifting", "Ford", "assigned"⟩
    (by decide)
  have h2 := hrec "navigation" ⟨1, "navigation", "Scion", "assigned"⟩
    (by decide)
  rw [show (delegateTask .unavailable (initialState configuredCaps)
      "heavy_lifting").outcome = .ok () from by decide] at h1
  rw [show (delegateTask .unavailable (initialState configuredCaps)
      "navigation").outcome = .ok () from by decide] at h2
  exact absurd (h1.symm.trans h2) (by decide)

/-- C2 (amended): on a task type on which no earlier step fails, `delegateTask`
appends `TaskRecord{task_type, robot_id, status=assigned}` to the ledger under
the freshly generated id, but the call returns no value: neither the record nor
its id is handed back to the caller. -/
theorem delegate_appends_assigned_record (adv : AdvisoryOutcome)
    (st : OrchState) (t : String)
    (h : (delegateTask adv st t).outcome = .ok ()) :
    ∃ robot, queryAIEngine adv st.caps t = .ok robot ∧
      (delegateTask adv st t).state.ledger
        = st.ledger ++ [⟨st.nextId, t, robot, "assigned"⟩] ∧
      (delegateTask adv st t).state.nextId = st.nextId + 1 := by
  obtain ⟨-, robot, hq, -, hl, hn, -⟩ := delegateTask_ok_spec adv st t h
  exact ⟨robot, hq, hl, hn⟩

/-- Witness for C2's amended theorem at a concrete successful delegation. -/
theorem delegate_appends_assigned_record_witness :
    ∃ robot,
      queryAIEngine .unavailable (initialState configuredCaps).caps
          "heavy_lifting" = .ok robot ∧
      (delegateTask .unavailable (initialState configuredCaps)
          "heavy_lifting").state.ledger
        = (initialState configuredCaps).ledger ++
            [⟨(initialState configuredCaps).nextId, "heavy_lifting", robot,
              "assigned"⟩] ∧
      (delegateTask .unavailable (initialState configuredCaps)
          "heavy_lifting").state.nextId
        = (initialState configuredCaps).nextId + 1 :=
  delegate_appends_assigned_record .unavailable (initialState configuredCaps)
    "heavy_lifting" (by decide)

/-- C3: an advisory failure (no response, transport error, or a reply without a
string robot_id) is recovered by the capability-table fallback: the selection
equals the pure fallback result, the delegation does not depend on which
advisory failure occurred, the fallback's only error is NoCapableRobot, and
only when the fallback fails does the delegation fail, with NoCapableRobot. -/
theorem advisory_failure_falls_back (adv : AdvisoryOutcome) (st : OrchState)
    (t : String) (hadv : adv = .unavailable ∨ adv = .protocolError) :
    queryAIEngine adv st.caps t = selectRobotByCapability st.caps t ∧
    (∀ adv2, adv2 = .unavailable ∨ adv2 = .protocolError →
      delegateTask adv st t = delegateTask adv2 st t) ∧
    (∀ e, selectRobotByCapability st.caps t = .error e →
      e = .noCapableRobot t) ∧
    (t ≠ "" → selectRobotByCapability st.caps t = .error (.noCapableRobot t) →
      (delegateTask adv st t).outcome = .error (.noCapableRobot t)) := by
  have hq : ∀ a, a = AdvisoryOutcome.unavailable ∨ a = .protocolError →
      queryAIEngine a st.caps t = selectRobotByCapability st.caps t := by
    rintro a (rfl | rfl) <;> rfl
  refine ⟨hq adv hadv, ?_, ?_, ?_⟩
  · rintro adv2 h2
    rcases hadv with rfl | rfl <;> rcases h2 with rfl | rfl <;> rfl
  · intro e he
    simp only [selectRobotByCapability] at he
    split at he
    · injection he with h
      exact h.symm
    · exact Except.noConfusion he
  · intro ht hfb
    simp [delegateTask, ht, hq adv hadv, hfb]

/-- Witness for C3 at a task type no robot can perform, advisory down. -/
theorem advisory_failure_falls_back_witness :
    queryAIEngine .unavailable (initialState configuredCaps).caps
        "unknown_capability"
      = selectRobotByCapability (initialState configuredCaps).caps
          "unknown_capability" ∧
    (delegateTask .unavailable (initialState configuredCaps)
        "unknown_capability").outcome
      = .error (.noCapableRobot "unknown_capability") := by
  have h := advisory_failure_falls_back .unavailable
    (initialState configuredCaps) "unknown_capability" (Or.inl rfl)
  exact ⟨h.1, h.2.2.2 (by decide) (by decide)⟩

/-- C7: `getTaskStatus` fails with NotFound when no ledger row carries the id;
after a successful delegation, querying the freshly generated id returns
exactly the new record, whose task type and robot id are the delegated task
type and the selected robot. -/
theorem getStatus_roundtrip :
    (∀ (st : OrchState) (i : Nat), (∀ r ∈ st.ledger, r.id ≠ i) →
      getTaskStatus st i = .error (.notFound i)) ∧
    (∀ (adv : AdvisoryOutcome) (st : OrchState) (t robot : String),
      (∀ r ∈ st.ledger, r.id < st.nextId) →
      (delegateTask adv st t).outcome = .ok () →
      queryAIEngine adv st.caps t = .ok robot →
      getTaskStatus (delegateTask adv st t).state st.nextId
        = .ok [⟨st.nextId, t, robot, "assigned"⟩]) := by
  constructor
  · intro st i hne
    have hfil : st.ledger.filter (fun r => r.id == i) = [] := by
      rw [List.filter_eq_nil_iff]
      intro r hr
      simp [hne r hr]
    simp [getTaskStatus, hfil]
  · intro adv st t robot hwf hok hq
    obtain ⟨-, robot2, hq2, -, hl, -, -⟩ := delegateTask_ok_spec adv st t hok
    rw [hq] at hq2
    injection hq2 with hr
    subst hr
    have hfil : st.ledger.filter (fun r => r.id == st.nextId) = [] := by
      rw [List.filter_eq_nil_iff]
      intro r hr2
      simp [Nat.ne_of_lt (hwf r hr2)]
    simp [getTaskStatus, hl, List.filter_append, hfil]

/-- Witness for C7: the empty-ledger NotFound and the scenario round trip. -/
theorem getStatus_roundtrip_witness :
    getTaskStatus (initialState configuredCaps) 1 = .error (.notFound 1) ∧
    getTaskStatus (delegateTask .unavailable (initialState configuredCaps)
        "heavy_lifting").state 1
      = .ok [⟨1, "heavy_lifting", "Ford", "assigned"⟩] := by
  refine ⟨getStatus_roundtrip.1 (initialState configuredCaps) 1 (by decide), ?_⟩
  exact getStatus_roundtrip.2 .unavailable (initialState configuredCaps)
    "heavy_lifting" "Ford" (by decide) (by decide) (by decide)

lemma bestFold_spec (t : String) :
    ∀ (l : CapTable) (a : String × Int),
      l.Pairwise (fun x y => x.1 < y.1) →
      (∀ p ∈ l, p.1 ≠ "") →
      (a = ("", 0) ∨ (a.1 ≠ "" ∧ 0 < a.2 ∧ ∀ q ∈ l, a.1 < q.1)) →
      (l.foldl (bestStep t) a = a ∧
        ∀ p ∈ l, ∀ s, alookup p.2 t = some s → s ≤ a.2) ∨
      (a.2 < (l.foldl (bestStep t) a).2 ∧
        (l.foldl (bestStep t) a).1 ≠ "" ∧ 0 < (l.foldl (bestStep t) a).2 ∧
        (∃ cs, ((l.foldl (bestStep t) a).1, cs) ∈ l ∧
          alookup cs t = some (l.foldl (bestStep t) a).2) ∧
        (∀ p ∈ l, ∀ s, alookup p.2 t = some s →
          s ≤ (l.foldl (bestStep t) a).2) ∧
        (∀ p ∈ l, ∀ s, alookup p.2 t = some s →
          s = (l.foldl (bestStep t) a).2 →
          (l.foldl (bestStep t) a).1 ≤ p.1)) := by
  intro l
  induction l with
  | nil =>
    intro a _ _ _
    exact Or.inl ⟨rfl, by simp⟩
  | cons p rest ih =>
    obtain ⟨pk, pv⟩ := p
    intro a hsort hne ha
    rw [List.pairwise_cons] at hsort
    obtain ⟨hplt, hsort2⟩ := hsort
    have hne2 : ∀ q ∈ rest, q.1 ≠ "" :=
      fun q hq => hne q (List.mem_cons_of_mem _ hq)
    have hnep : (pk, pv).1 ≠ "" := hne (pk, pv) (List.mem_cons_self _ _)
    rcases hsc : alookup pv t with _ | s
    · have hstep : bestStep t a (pk, pv) = a := by simp [bestStep, hsc]
      rw [List.foldl_cons, hstep]
      have ha2 : a = ("", 0) ∨ (a.1 ≠ "" ∧ 0 < a.2 ∧ ∀ q ∈ rest, a.1 < q.1) := by
        rcases ha with h | ⟨h1, h2, h3⟩
        · exact Or.inl h
        · exact Or.inr ⟨h1, h2, fun q hq => h3 q (List.mem_cons_of_mem _ hq)⟩
      rcases ih a hsort2 hne2 ha2 with ⟨hb, hall⟩ |
        ⟨h1, h2, h3, ⟨cs, hmem, hcs⟩, h5, h6⟩
      · refine Or.inl ⟨hb, ?_⟩
        intro q hq s2 hs2
        rcases List.mem_cons.mp hq with rfl | hq2
        · rw [hsc] at hs2
          cases hs2
        · exact hall q hq2 s2 hs2
      · refine Or.inr ⟨h1, h2, h3,
          ⟨cs, List.mem_cons_of_mem _ hmem, hcs⟩, ?_, ?_⟩
        · intro q hq s2 hs2
          rcases List.mem_cons.mp hq with rfl | hq2
          · rw [hsc] at hs2
            cases hs2
          · exact h5 q hq2 s2 hs2
        · intro q hq s2 hs2 hseq
          rcases List.mem_cons.mp hq with rfl | hq2
          · rw [hsc] at hs2
            cases hs2
          · exact h6 q hq2 s2 hs2 hseq
    · by_cases hgt : s > a.2
      · have hstep : bestStep t a (pk, pv) = (pk, s) := by
          simp [bestStep, hsc, hgt]
        rw [List.foldl_cons, hstep]
        have hpos : 0 < s := by
          rcases ha with rfl | ⟨-, h2, -⟩
          · simpa using hgt
          · exact lt_trans h2 hgt
        have ha2 : (pk, s) = ("", 0) ∨ ((pk, s).1 ≠ "" ∧ 0 < (pk, s).2 ∧
            ∀ q ∈ rest, (pk, s).1 < q.1) :=
          Or.inr ⟨hnep, hpos, hplt⟩
        rcases ih (pk, s) hsort2 hne2 ha2 with ⟨hb, hall⟩ |
          ⟨h1, h2, h3, ⟨cs, hmem, hcs⟩, h5, h6⟩
        · rw [hb]
          refine Or.inr ⟨hgt, hnep, hpos,
            ⟨pv, List.mem_cons_self _ _, hsc⟩, ?_, ?_⟩
          · intro q hq s2 hs2
            rcases List.mem_cons.mp hq with rfl | hq2
            · rw [hsc] at hs2
              injection hs2 with h
              exact le_of_eq h.symm
            · exact hall q hq2 s2 hs2
          · intro q hq s2 hs2 hseq
            rcases List.mem_cons.mp hq with rfl | hq2
            · exact le_refl pk
            · exact le_of_lt (hplt q hq2)
        · refine Or.inr ⟨lt_trans hgt h1, h2, h3,
            ⟨cs, List.mem_cons_of_mem _ hmem, hcs⟩, ?_, ?_⟩
          · intro q hq s2 hs2
            rcases List.mem_cons.mp hq with rfl | hq2
            · rw [hsc] at hs2
              injection hs2 with h
              exact le_of_lt (h ▸ h1)
            · exact h5 q hq2 s2 hs2
          · intro q hq s2 hs2 hseq
            rcases List.mem_cons.mp hq with rfl | hq2
            · rw [hsc] at hs2
              injection hs2 with h
              rw [← hseq, ← h] at h1
              exact absurd h1 (lt_irrefl s)
            · exact h6 q hq2 s2 hs2 hseq
      · have hstep : bestStep t a (pk, pv) = a := by
          simp [bestStep, hsc, hgt]
        rw [List.foldl_cons, hstep]
        have hsle : s ≤ a.2 := not_lt.mp hgt
        have ha2 : a = ("", 0) ∨ (a.1 ≠ "" ∧ 0 < a.2 ∧ ∀ q ∈ rest, a.1 < q.1) := by
          rcases ha with h | ⟨h1, h2, h3⟩
          · exact Or.inl h
          · exact Or.inr ⟨h1, h2, fun q hq => h3 q (List.mem_cons_of_mem _ hq)⟩
        rcases ih a hsort2 hne2 ha2 with ⟨hb, hall⟩ |
          ⟨h1, h2, h3, ⟨cs, hmem, hcs⟩, h5, h6⟩
        · refine Or.inl ⟨hb, ?_⟩
          intro q hq s2 hs2
          rcases List.mem_cons.mp hq with rfl | hq2
          · rw [hsc] at hs2
            injection hs2 with h
            exact h ▸ hsle
          · exact hall q hq2 s2 hs2
        · refine Or.inr ⟨h1, h2, h3,
            ⟨cs, List.mem_cons_of_mem _ hmem, hcs⟩, ?_, ?_⟩
          · intro q hq s2 hs2
            rcases List.mem_cons.mp hq with rfl | hq2
            · rw [hsc] at hs2
              injection hs2 with h
              exact le_of_lt (lt_of_le_of_lt (h ▸ hsle) h1)
            · exact h5 q hq2 s2 hs2
          · intro q hq s2 hs2 hseq
            rcases List.mem_cons.mp hq with rfl | hq2
            · rw [hsc] at hs2
              injection hs2 with h
              have hlt := lt_of_le_of_lt (h ▸ hsle) h1
              rw [hseq] at hlt
              exact absurd hlt (lt_irrefl _)
            · exact h6 q hq2 s2 hs2 hseq

/-- C4 (counterexample): a robot whose id is the empty string collides with the
`best_robot.empty()` sentinel of `selectRobotByCapability`: with the table
`{"" -> {lift -> 50}}` a robot does have positive strength for `lift`, yet the
function reports the NotFound error instead of returning that robot — the
claimed characterisation fails on tables containing an empty robot id. -/
theorem bestRobotFor_empty_id_cex :
    selectRobotByCapability [("", [("lift", 50)])] "lift"
      = .error (.noCapableRobot "lift") ∧
    ("", [("lift", (50 : Int))]) ∈ ([("", [("lift", 50)])] : CapTable) ∧
    alookup [("lift", (50 : Int))] "lift" = some 50 ∧ (0 : Int) < 50 :=
  ⟨by decide, by decide, by decide, by decide⟩

/-- C4 (amended): over any `std::map`-valid capability table (strictly
ascending robot ids) whose robot ids are all non-empty,
`selectRobotByCapability` fails with the NotFound error exactly when no robot
has positive strength for the capability, and returns `r` exactly when `r` has
positive strength, no robot has greater strength, and `r` is
lexicographically least among the robots attaining that strength — an
order-free characterisation, so the result is determined by the table
contents alone (determinism). -/
theorem bestRobotFor_max_lex (caps : CapTable) (t : String)
    (hsort : caps.Pairwise (fun x y => x.1 < y.1))
    (hne : ∀ p ∈ caps, p.1 ≠ "") :
    (selectRobotByCapability caps t = .error (.noCapableRobot t) ↔
      ∀ p ∈ caps, ∀ s, alookup p.2 t = some s → s ≤ 0) ∧
    (∀ r, selectRobotByCapability caps t = .ok r ↔
      ∃ cs s, (r, cs) ∈ caps ∧ alookup cs t = some s ∧ 0 < s ∧
        (∀ p ∈ caps, ∀ s2, alookup p.2 t = some s2 → s2 ≤ s) ∧
        (∀ p ∈ caps, alookup p.2 t = some s → r ≤ p.1)) := by
  have H := bestFold_spec t caps ("", 0) hsort hne (Or.inl rfl)
  have hsel : selectRobotByCapability caps t
      = if (caps.foldl (bestStep t) ("", 0)).1 = ""
        then .error (.noCapableRobot t)
        else .ok (caps.foldl (bestStep t) ("", 0)).1 := rfl
  constructor
  · constructor
    · intro herr
      rcases H with ⟨hb0, hbound⟩ | ⟨-, hbne, -, -, -, -⟩
      · intro p hp s hs
        have hle := hbound p hp s hs
        simpa [hb0] using hle
      · rw [hsel, if_neg hbne] at herr
        cases herr
    · intro hbound0
      rcases H with ⟨hb0, -⟩ | ⟨-, -, hpos, ⟨cs, hmem, hcs⟩, -, -⟩
      · rw [hsel, if_pos (by simp [hb0])]
      · exact absurd hpos (not_lt.mpr (hbound0 _ hmem _ hcs))
  · intro r
    constructor
    · intro hok
      rcases H with ⟨hb0, -⟩ | ⟨-, hbne, hpos, ⟨cs, hmem, hcs⟩, h5, h6⟩
      · rw [hsel, if_pos (by simp [hb0])] at hok
        cases hok
      · rw [hsel, if_neg hbne] at hok
        injection hok with hr
        subst hr
        exact ⟨cs, _, hmem, hcs, hpos, fun p hp s2 hs2 => h5 p hp s2 hs2,
          fun p hp hs => h6 p hp _ hs rfl⟩
    · rintro ⟨cs, s, hmem, hcs, hspos, hmax, htie⟩
      rcases H with ⟨hb0, hbound⟩ | ⟨-, hbne, hpos, ⟨cs2, hmem2, hcs2⟩, h5, h6⟩
      · have hle : s ≤ 0 := by simpa [hb0] using hbound _ hmem _ hcs
        exact absurd hspos (not_lt.mpr hle)
      · have hseq : s = (caps.foldl (bestStep t) ("", 0)).2 :=
          le_antisymm (h5 _ hmem _ hcs) (hmax _ hmem2 _ hcs2)
        have hble : (caps.foldl (bestStep t) ("", 0)).1 ≤ r :=
          h6 _ hmem _ hcs hseq
        have hrle : r ≤ (caps.foldl (bestStep t) ("", 0)).1 :=
          htie _ hmem2 (by rw [hseq]; exact hcs2)
        rw [hsel, if_neg hbne, le_antisymm hble hrle]

/-- Witness for C4's amended theorem: on the configured table, the best robot
for heavy_lifting is Ford. -/
theorem bestRobotFor_max_lex_witness :
    selectRobotByCapability configuredCaps "heavy_lifting" = .ok "Ford" := by
  have hFS : ("Ford" : String) < "Scion" := by
    rw [String.lt_iff_toList_lt]
    decide
  have hsort : configuredCaps.Pairwise (fun x y => x.1 < y.1) := by
    refine List.pairwise_cons.mpr ⟨?_, List.pairwise_singleton _ _⟩
    intro q hq
    rcases List.mem_cons.mp hq with rfl | hq2
    · exact hFS
    · exact absurd hq2 (List.not_mem_nil q)
  have h := (bestRobotFor_max_lex configuredCaps "heavy_lifting"
    hsort (by decide)).2 "Ford"
  refine h.mpr ⟨[("heavy_lifting", 90), ("navigation", 70)], 90,
    by decide, by decide, by decide, ?_, ?_⟩
  · intro p hp s2 hs2
    rcases List.mem_cons.mp hp with rfl | hp2
    · simp [alookup] at hs2
      omega
    · rcases List.mem_cons.mp hp2 with rfl | hp3
      · simp [alookup] at hs2
      · exact absurd hp3 (List.not_mem_nil p)
  · intro p hp hs
    rcases List.mem_cons.mp hp with rfl | hp2
    · exact le_refl _
    · rcases List.mem_cons.mp hp2 with rfl | hp3
      · simp [alookup] at hs
      · exact absurd hp3 (List.not_mem_nil p)

lemma queryAIEngine_of_path (adv : AdvisoryOutcome) (caps : CapTable)
    (t robot : String)
    (h : adv = .ok robot ∨ ((adv = .unavailable ∨ adv = .protocolError) ∧
      selectRobotByCapability caps t = .ok robot)) :
    queryAIEngine adv caps t = .ok robot := by
  rcases h with rfl | ⟨hfail, hsel⟩
  · rfl
  · rcases hfail with rfl | rfl <;> exact hsel

lemma alookup_mem {α : Type} :
    ∀ (l : List (String × α)) (k : String) (v : α),
      alookup l k = some v → (k, v) ∈ l := by
  intro l
  induction l with
  | nil =>
    intro k v h
    cases h
  | cons p rest ih =>
    obtain ⟨pk, pv⟩ := p
    intro k v h
    simp only [alookup] at h
    by_cases hpk : pk = k
    · rw [if_pos hpk] at h
      injection h with hv
      rw [← hpk, ← hv]
      exact List.mem_cons_self _ _
    · rw [if_neg hpk] at h
      exact List.mem_cons_of_mem _ (ih k v h)

lemma strengthOf_nonneg (caps : CapTable) (r c : String)
    (hnn : capsNonneg caps) : 0 ≤ strengthOf caps r c := by
  simp only [strengthOf]
  rcases h1 : alookup caps r with _ | inner
  · simp
  · show 0 ≤ (alookup inner c).getD 0
    rcases h2 : alookup inner c with _ | v
    · simp
    · simpa using hnn (r, inner) (alookup_mem _ _ _ h1) (c, v)
        (alookup_mem _ _ _ h2)

lemma tableBracket_fst (caps : CapTable) (r c : String) :
    (tableBracket caps r c).1 = strengthOf caps r c := by
  simp only [tableBracket, strengthOf]
  rcases h1 : alookup caps r with _ | inner
  · rfl
  · rcases h2 : alookup inner c with _ | v <;> simp [h2]

lemma minStrengthCheckSrc_fst (caps : CapTable) (r t : String)
    (hnn : capsNonneg caps) :
    (minStrengthCheckSrc caps r t).1 =
      if strengthOf caps r t < specMinStrength referencePolicy t
      then .error (.insufficientCapability r t) else .ok () := by
  by_cases h1 : t = "heavy_lifting"
  · subst h1
    have hmin : specMinStrength referencePolicy "heavy_lifting" = 50 := by
      decide
    simp [minStrengthCheckSrc, tableBracket_fst, hmin]
  · by_cases h2 : t = "delicate_task"
    · subst h2
      have hmin : specMinStrength referencePolicy "delicate_task" = 50 := by
        decide
      simp [minStrengthCheckSrc, h1, tableBracket_fst, hmin]
    · have hm1 : ¬ ("heavy_lifting" = t) := fun hh => h1 hh.symm
      have hm2 : ¬ ("delicate_task" = t) := fun hh => h2 hh.symm
      have hmin : specMinStrength referencePolicy t = 0 := by
        simp [specMinStrength, referencePolicy, alookup, hm1, hm2]
      rw [hmin]
      simp [minStrengthCheckSrc, h1, h2,
        not_lt.mpr (strengthOf_nonneg caps r t hnn)]

lemma delegateWithPolicy_insufficient (policy : List (String × Int))
    (adv : AdvisoryOutcome) (st : OrchState) (t robot : String)
    (ht : t ≠ "")
    (hpath : adv = .ok robot ∨ ((adv = .unavailable ∨ adv = .protocolError) ∧
      selectRobotByCapability st.caps t = .ok robot))
    (hknown : (alookup st.caps robot).isSome = true)
    (hlt : strengthOf st.caps robot t < specMinStrength policy t) :
    (delegateWithPolicy policy adv st t).outcome
      = .error (.insufficientCapability robot t) := by
  have hq := queryAIEngine_of_path adv st.caps t robot hpath
  rcases hke : alookup st.caps robot with _ | inner
  · rw [hke] at hknown
    cases hknown
  · simp [delegateWithPolicy, ht, hq, hke, hlt]

lemma delegate_ref_policy (adv : AdvisoryOutcome) (st : OrchState)
    (t : String) (hnn : capsNonneg st.caps) :
    (delegateTask adv st t).outcome
      = (delegateWithPolicy referencePolicy adv st t).outcome ∧
    (delegateTask adv st t).state.ledger
      = (delegateWithPolicy referencePolicy adv st t).state.ledger ∧
    (delegateTask adv st t).state.nextId
      = (delegateWithPolicy referencePolicy adv st t).state.nextId ∧
    (delegateTask adv st t).advisoryCalls
      = (delegateWithPolicy referencePolicy adv st t).advisoryCalls ∧
    (delegateTask adv st t).published
      = (delegateWithPolicy referencePolicy adv st t).published := by
  by_cases ht : t = ""
  · subst ht
    exact ⟨rfl, rfl, rfl, rfl, rfl⟩
  · rcases hq : queryAIEngine adv st.caps t with e | robot
    · refine ⟨?_, ?_, ?_, ?_, ?_⟩ <;>
        simp [delegateTask, delegateWithPolicy, ht, hq]
    · rcases hk : alookup st.caps robot with _ | inner
      · refine ⟨?_, ?_, ?_, ?_, ?_⟩ <;>
          simp [delegateTask, delegateWithPolicy, ht, hq, hk]
      · have hchk := minStrengthCheckSrc_fst st.caps robot t hnn
        by_cases hlt : strengthOf st.caps robot t
            < specMinStrength referencePolicy t
        · rw [if_pos hlt] at hchk
          refine ⟨?_, ?_, ?_, ?_, ?_⟩ <;>
            simp [delegateTask, delegateWithPolicy, ht, hq, hk, hchk, hlt]
        · rw [if_neg hlt] at hchk
          refine ⟨?_, ?_, ?_, ?_, ?_⟩ <;>
            simp [delegateTask, delegateWithPolicy, ht, hq, hk, hchk, hlt]

/-- C1: the minimum-strength policy.  First, the source's `delegateTask` under
the reference policy (the two hardcoded entries heavy_lifting -> 50 and
delicate_task -> 50): for well-formed strengths it fails with
InsufficientCapability whenever the selected robot's strength for the task
type is below the configured minimum, whether the robot came from the advisory
or from the capability-table fallback.  Second, the same property for the
spec's generalised `delegateWithPolicy` under every policy.  Third, the
refinement: on well-formed tables the source behaves observably like the
generalised delegate under the reference policy. -/
theorem delegate_min_strength_policy :
    (∀ (adv : AdvisoryOutcome) (st : OrchState) (t robot : String),
      capsNonneg st.caps →
      t ≠ "" →
      (adv = .ok robot ∨ ((adv = .unavailable ∨ adv = .protocolError) ∧
        selectRobotByCapability st.caps t = .ok robot)) →
      (alookup st.caps robot).isSome = true →
      strengthOf st.caps robot t < specMinStrength referencePolicy t →
      (delegateTask adv st t).outcome
        = .error (.insufficientCapability robot t)) ∧
    (∀ (policy : List (String × Int)) (adv : AdvisoryOutcome)
        (st : OrchState) (t robot : String),
      t ≠ "" →
      (adv = .ok robot ∨ ((adv = .unavailable ∨ adv = .protocolError) ∧
        selectRobotByCapability st.caps t = .ok robot)) →
      (alookup st.caps robot).isSome = true →
      strengthOf st.caps robot t < specMinStrength policy t →
      (delegateWithPolicy policy adv st t).outcome
        = .error (.insufficientCapability robot t)) ∧
    (∀ (adv : AdvisoryOutcome) (st : OrchState) (t : String),
      capsNonneg st.caps →
      (delegateTask adv st t).outcome
        = (delegateWithPolicy referencePolicy adv st t).outcome ∧
      (delegateTask adv st t).state.ledger
        = (delegateWithPolicy referencePolicy adv st t).state.ledger ∧
      (delegateTask adv st t).published
        = (delegateWithPolicy referencePolicy adv st t).published) := by
  refine ⟨?_, ?_, ?_⟩
  · intro adv st t robot hnn ht hpath hknown hlt
    rw [(delegate_ref_policy adv st t hnn).1]
    exact delegateWithPolicy_insufficient referencePolicy adv st t robot
      ht hpath hknown hlt
  · exact delegateWithPolicy_insufficient
  · intro adv st t hnn
    obtain ⟨h1, h2, -, -, h5⟩ := delegate_ref_policy adv st t hnn
    exact ⟨h1, h2, h5⟩

/-- Witness for C1 at a concrete input: the advisory recommends Scion for
heavy_lifting; Scion's strength (0, capability absent) is below the reference
minimum 50, so both the source delegate and the generalised delegate reject
with InsufficientCapability. -/
theorem delegate_min_strength_policy_witness :
    (delegateTask (.ok "Scion") (initialState configuredCaps)
        "heavy_lifting").outcome
      = .error (.insufficientCapability "Scion" "heavy_lifting") ∧
    (delegateWithPolicy referencePolicy (.ok "Scion")
        (initialState configuredCaps) "heavy_lifting").outcome
      = .error (.insufficientCapability "Scion" "heavy_lifting") := by
  have H := delegate_min_strength_policy
  exact ⟨H.1 (.ok "Scion") (initialState configuredCaps) "heavy_lifting"
      "Scion" (by decide) (by decide) (Or.inl rfl) (by decide) (by decide),
    H.2.1 referencePolicy (.ok "Scion") (initialState configuredCaps)
      "heavy_lifting" "Scion" (by decide) (Or.inl rfl) (by decide) (by decide)⟩

lemma alookup_insortKV_self {α : Type} :
    ∀ (l : List (String × α)) (k : String) (v : α),
      alookup l k = none → alookup (insortKV l k v) k = some v := by
  intro l
  induction l with
  | nil =>
    intro k v _
    simp [insortKV, alookup]
  | cons p rest ih =>
    obtain ⟨pk, pv⟩ := p
    intro k v habs
    simp only [alookup] at habs
    by_cases hpk : pk = k
    · rw [if_pos hpk] at habs
      cases habs
    · rw [if_neg hpk] at habs
      simp only [insortKV]
      by_cases hlt : k < pk
      · rw [if_pos hlt]
        simp [alookup]
      · rw [if_neg hlt]
        by_cases heq : k = pk
        · exact absurd heq.symm hpk
        · rw [if_neg heq]
          simp only [alookup]
          rw [if_neg hpk]
          exact ih k v habs

lemma alookup_insortKV_other {α : Type} :
    ∀ (l : List (String × α)) (k : String) (v : α) (k2 : String),
      k2 ≠ k → alookup (insortKV l k v) k2 = alookup l k2 := by
  intro l
  induction l with
  | nil =>
    intro k v k2 hne
    simp only [insortKV, alookup]
    rw [if_neg (fun hh => hne hh.symm)]
  | cons p rest ih =>
    obtain ⟨pk, pv⟩ := p
    intro k v k2 hne
    simp only [insortKV]
    by_cases hlt : k < pk
    · rw [if_pos hlt]
      simp only [alookup]
      rw [if_neg (fun hh => hne hh.symm)]
    · rw [if_neg hlt]
      by_cases heq : k = pk
      · rw [if_pos heq]
      · rw [if_neg heq]
        simp only [alookup]
        by_cases h2 : pk = k2
        · rw [if_pos h2, if_pos h2]
        · rw [if_neg h2, if_neg h2]
          exact ih k v k2 hne

lemma alookup_map_update_self {α : Type} (g : α → α) :
    ∀ (l : List (String × α)) (r : String),
      alookup (l.map (fun p => if p.1 = r then (p.1, g p.2) else p)) r
        = (alookup l r).map g := by
  intro l
  induction l with
  | nil =>
    intro r
    simp [alookup]
  | cons p rest ih =>
    obtain ⟨pk, pv⟩ := p
    intro r
    by_cases hpk : pk = r
    · subst hpk
      simp [alookup]
    · simp [alookup, hpk, ih]

lemma alookup_map_update_other {α : Type} (g : α → α) :
    ∀ (l : List (String × α)) (r k : String), k ≠ r →
      alookup (l.map (fun p => if p.1 = r then (p.1, g p.2) else p)) k
        = alookup l k := by
  intro l
  induction l with
  | nil =>
    intro r k _
    simp [alookup]
  | cons p rest ih =>
    obtain ⟨pk, pv⟩ := p
    intro r k hne
    by_cases hpk : pk = r
    · subst hpk
      have hpkk : ¬ pk = k := fun hh => hne hh.symm
      simp [alookup, hpkk, ih _ _ hne]
    · by_cases hpk2 : pk = k
      · subst hpk2
        simp [alookup, hpk]
      · simp [alookup, hpk, hpk2, ih _ _ hne]

lemma alookup_capUpdate_self (caps : CapTable) (r c : String) :
    alookup (caps.map
        (fun p => if p.1 = r then (p.1, insortKV p.2 c 0) else p)) r
      = (alookup caps r).map (fun m => insortKV m c 0) :=
  alookup_map_update_self (fun m => insortKV m c 0) caps r

lemma alookup_capUpdate_other (caps : CapTable) (r k c : String)
    (h : k ≠ r) :
    alookup (caps.map
        (fun p => if p.1 = r then (p.1, insortKV p.2 c 0) else p)) k
      = alookup caps k :=
  alookup_map_update_other (fun m => insortKV m c 0) caps r k h

lemma tableBracket_preserve (caps : CapTable) (r c r2 c2 : String) (s : Int)
    (h : strengthLookup caps r2 c2 = some s) :
    strengthLookup (tableBracket caps r c).2 r2 c2 = some s := by
  rcases h1 : alookup caps r2 with _ | inner2
  · rw [strengthLookup, h1] at h
    cases h
  · rw [strengthLookup, h1] at h
    simp only [Option.some_bind] at h
    rcases hr : alookup caps r with _ | inner
    · by_cases hr2 : r2 = r
      · subst hr2
        rw [h1] at hr
        cases hr
      · simp only [tableBracket, hr]
        simp only [strengthLookup]
        rw [alookup_insortKV_other _ _ _ _ hr2, h1]
        simpa using h
    · rcases hc : alookup inner c with _ | v
      · simp only [tableBracket, hr, hc]
        simp only [strengthLookup]
        by_cases hr2 : r2 = r
        · subst hr2
          rw [h1] at hr
          injection hr with hre
          subst hre
          rw [alookup_capUpdate_self]
          rw [h1]
          simp only [Option.map_some', Option.some_bind]
          have hcc : c2 ≠ c := by
            intro hh
            rw [hh] at h
            rw [h] at hc
            cases hc
          rw [alookup_insortKV_other _ _ _ _ hcc]
          exact h
        · rw [alookup_capUpdate_other _ _ _ _ hr2, h1]
          simpa using h
      · simp only [tableBracket, hr, hc]
        simp only [strengthLookup]
        rw [h1]
        simpa using h

lemma tableBracket_new (caps : CapTable) (r c r2 c2 : String) (s : Int)
    (h : strengthLookup (tableBracket caps r c).2 r2 c2 = some s) :
    strengthLookup caps r2 c2 = some s ∨ (s = 0 ∧ c2 = c) := by
  rcases hr : alookup caps r with _ | inner
  · simp only [tableBracket, hr] at h
    simp only [strengthLookup] at h
    by_cases hr2 : r2 = r
    · subst hr2
      rw [alookup_insortKV_self _ _ _ hr] at h
      simp only [Option.some_bind] at h
      simp only [alookup] at h
      by_cases hcc : c = c2
      · rw [if_pos hcc] at h
        injection h with hs
        exact Or.inr ⟨hs.symm, hcc.symm⟩
      · rw [if_neg hcc] at h
        cases h
    · rw [alookup_insortKV_other _ _ _ _ hr2] at h
      exact Or.inl h
  · rcases hc : alookup inner c with _ | v
    · simp only [tableBracket, hr, hc] at h
      simp only [strengthLookup] at h
      by_cases hr2 : r2 = r
      · subst hr2
        rw [alookup_capUpdate_self, hr] at h
        simp only [Option.map_some', Option.some_bind] at h
        by_cases hcc : c2 = c
        · subst hcc
          rw [alookup_insortKV_self _ _ _ hc] at h
          injection h with hs
          exact Or.inr ⟨hs.symm, rfl⟩
        · rw [alookup_insortKV_other _ _ _ _ hcc] at h
          refine Or.inl ?_
          rw [strengthLookup, hr]
          simpa using h
      · rw [alookup_capUpdate_other _ _ _ _ hr2] at h
        exact Or.inl h
    · simp only [tableBracket, hr, hc] at h
      exact Or.inl h

lemma delegateTask_caps_cases (adv : AdvisoryOutcome) (st : OrchState)
    (t : String) :
    (delegateTask adv st t).state.caps = st.caps ∨
    (∃ robot, (delegateTask adv st t).state.caps
      = (tableBracket st.caps robot "heavy_lifting").2) ∨
    (∃ robot, (delegateTask adv st t).state.caps
      = (tableBracket st.caps robot "delicate_task").2) := by
  by_cases ht : t = ""
  · subst ht
    exact Or.inl rfl
  · rcases hq : queryAIEngine adv st.caps t with e | robot
    · exact Or.inl (by simp [delegateTask, ht, hq])
    · rcases hk : alookup st.caps robot with _ | inner
      · exact Or.inl (by simp [delegateTask, ht, hq, hk])
      · have hcaps : (delegateTask adv st t).state.caps
            = (minStrengthCheckSrc st.caps robot t).2 := by
          rcases hc : (minStrengthCheckSrc st.caps robot t).1 with e | u <;>
            simp [delegateTask, ht, hq, hk, hc]
        by_cases h1 : t = "heavy_lifting"
        · subst h1
          refine Or.inr (Or.inl ⟨robot, ?_⟩)
          rw [hcaps]
          simp [minStrengthCheckSrc]
        · by_cases h2 : t = "delicate_task"
          · subst h2
            refine Or.inr (Or.inr ⟨robot, ?_⟩)
            rw [hcaps]
            simp [minStrengthCheckSrc, h1]
          · refine Or.inl ?_
            rw [hcaps]
            simp [minStrengthCheckSrc, h1, h2]

/-- C9 (counterexample): the capability table is not immutable.  With the
advisory recommending Scion for heavy_lifting, the check
`robot_capabilities_[robot_id]["heavy_lifting"]` default-inserts a zero entry
into Scion's capability map (`std::map::operator[]`), so after the call the
table differs from the configured one: Scion's set of capabilities has grown
by `heavy_lifting -> 0`. -/
theorem delegate_mutates_capability_table_cex :
    strengthLookup configuredCaps "Scion" "heavy_lifting" = none ∧
    strengthLookup (delegateTask (.ok "Scion") (initialState configuredCaps)
        "heavy_lifting").state.caps "Scion" "heavy_lifting" = some 0 ∧
    (delegateTask (.ok "Scion") (initialState configuredCaps)
        "heavy_lifting").state.caps ≠ configuredCaps := by
  have h0 : strengthLookup configuredCaps "Scion" "heavy_lifting" = none := by
    decide
  have ht : ("heavy_lifting" : String) ≠ "" := by decide
  have hq : queryAIEngine (.ok "Scion") configuredCaps "heavy_lifting"
      = .ok "Scion" := rfl
  have hk : alookup configuredCaps "Scion"
      = some [("delicate_task", 85), ("navigation", 80)] := by decide
  have hin : alookup [("delicate_task", (85 : Int)), ("navigation", 80)]
      "heavy_lifting" = none := by decide
  have hc : (minStrengthCheckSrc configuredCaps "Scion" "heavy_lifting").1
      = .error (.insufficientCapability "Scion" "heavy_lifting") := by decide
  have hcaps : (delegateTask (.ok "Scion") (initialState configuredCaps)
      "heavy_lifting").state.caps
      = (tableBracket configuredCaps "Scion" "heavy_lifting").2 := by
    simp [delegateTask, initialState, ht, hq, hk, hc, minStrengthCheckSrc]
    split <;> rfl
  have htb : (tableBracket configuredCaps "Scion" "heavy_lifting").2
      = configuredCaps.map (fun p =>
          if p.1 = "Scion" then (p.1, insortKV p.2 "heavy_lifting" 0)
          else p) := by
    simp only [tableBracket, hk, hin]
  have hsl : strengthLookup (delegateTask (.ok "Scion")
      (initialState configuredCaps) "heavy_lifting").state.caps
      "Scion" "heavy_lifting" = some 0 := by
    rw [hcaps, htb, strengthLookup, alookup_capUpdate_self, hk]
    simp only [Option.map_some', Option.some_bind]
    exact alookup_insortKV_self _ _ _ hin
  refine ⟨h0, hsl, fun heq => ?_⟩
  rw [heq, h0] at hsl
  cases hsl

/-- C9 (amended): the frame of `delegateTask` on the capability table: every
strength stored before the call is still stored unchanged afterwards, and any
binding present afterwards was either already there or is a zero-strength
entry for one of the two checked capabilities (heavy_lifting, delicate_task)
inserted by the `operator[]` read of the minimum-strength check; no strength
value is ever changed and no entry is removed. -/
theorem delegate_capability_table_frame (adv : AdvisoryOutcome)
    (st : OrchState) (t : String) :
    (∀ r c s, strengthLookup st.caps r c = some s →
      strengthLookup (delegateTask adv st t).state.caps r c = some s) ∧
    (∀ r c s, strengthLookup (delegateTask adv st t).state.caps r c = some s →
      strengthLookup st.caps r c = some s ∨
        (s = 0 ∧ (c = "heavy_lifting" ∨ c = "delicate_task"))) := by
  rcases delegateTask_caps_cases adv st t with hc | ⟨robot, hc⟩ | ⟨robot, hc⟩
  · rw [hc]
    exact ⟨fun r c s h => h, fun r c s h => Or.inl h⟩
  · rw [hc]
    refine ⟨fun r c s h => tableBracket_preserve _ _ _ _ _ _ h,
      fun r c s h => ?_⟩
    rcases tableBracket_new _ _ _ _ _ _ h with h2 | ⟨hs, hcc⟩
    · exact Or.inl h2
    · exact Or.inr ⟨hs, Or.inl hcc⟩
  · rw [hc]
    refine ⟨fun r c s h => tableBracket_preserve _ _ _ _ _ _ h,
      fun r c s h => ?_⟩
    rcases tableBracket_new _ _ _ _ _ _ h with h2 | ⟨hs, hcc⟩
    · exact Or.inl h2
    · exact Or.inr ⟨hs, Or.inr hcc⟩

/-- Witness for C9's amended theorem: Ford's stored heavy_lifting strength 90
survives the delegation that mutates Scion's entry. -/
theorem delegate_capability_table_frame_witness :
    strengthLookup (delegateTask (.ok "Scion") (initialState configuredCaps)
        "heavy_lifting").state.caps "Ford" "heavy_lifting" = some 90 :=
  (delegate_capability_table_frame (.ok "Scion")
      (initialState configuredCaps) "heavy_lifting").1 "Ford" "heavy_lifting"
    90 (by decide)

lemma alookup_append {α : Type} :
    ∀ (a b : List (String × α)) (k : String),
      alookup (a ++ b) k
        = match alookup a k with
          | some v => some v
          | none => alookup b k := by
  intro a
  induction a with
  | nil =>
    intro b k
    rfl
  | cons p rest ih =>
    obtain ⟨pk, pv⟩ := p
    intro b k
    simp only [List.cons_append, alookup]
    by_cases hpk : pk = k
    · rw [if_pos hpk, if_pos hpk]
    · rw [if_neg hpk, if_neg hpk]
      exact ih b k

lemma loadDrivers_mono (loadOk : String → Bool) (drv : String → DriverFn) :
    ∀ (l : List (String × String)) (acc : List (String × DriverFn))
      (r : String),
      (alookup acc r).isSome = true →
      (alookup (l.foldl (fun a p =>
          if loadOk p.1 then a ++ [(p.1, drv p.1)] else a) acc) r).isSome
        = true := by
  intro l
  induction l with
  | nil =>
    intro acc r h
    exact h
  | cons p rest ih =>
    intro acc r h
    rw [List.foldl_cons]
    by_cases hl : loadOk p.1 = true
    · rw [if_pos hl]
      refine ih _ r ?_
      rw [alookup_append]
      rcases hx : alookup acc r with _ | v
      · rw [hx] at h
        cases h
      · rfl
    · rw [if_neg hl]
      exact ih acc r h

lemma loadDrivers_in (loadOk : String → Bool) (drv : String → DriverFn) :
    ∀ (l : List (String × String)) (acc : List (String × DriverFn))
      (r path : String),
      (r, path) ∈ l → loadOk r = true →
      (alookup (l.foldl (fun a p =>
          if loadOk p.1 then a ++ [(p.1, drv p.1)] else a) acc) r).isSome
        = true := by
  intro l
  induction l with
  | nil =>
    intro acc r path hmem _
    exact absurd hmem (List.not_mem_nil _)
  | cons p rest ih =>
    obtain ⟨pk, pp⟩ := p
    intro acc r path hmem hload
    rw [List.foldl_cons]
    rcases List.mem_cons.mp hmem with heq | hmem2
    · injection heq with h1 h2
      subst h1
      rw [if_pos hload]
      refine loadDrivers_mono loadOk drv rest _ r ?_
      rw [alookup_append]
      rcases hx : alookup acc r with _ | v
      · simp [alookup]
      · rfl
    · exact ih _ r path hmem2 hload

lemma loadDrivers_notin (loadOk : String → Bool) (drv : String → DriverFn) :
    ∀ (l : List (String × String)) (acc : List (String × DriverFn))
      (r : String), loadOk r = false →
      alookup (l.foldl (fun a p =>
          if loadOk p.1 then a ++ [(p.1, drv p.1)] else a) acc) r
        = alookup acc r := by
  intro l
  induction l with
  | nil =>
    intro acc r _
    rfl
  | cons p rest ih =>
    obtain ⟨pk, pp⟩ := p
    intro acc r hload
    rw [List.foldl_cons]
    by_cases hl : loadOk pk = true
    · rw [if_pos hl]
      rw [ih _ r hload, alookup_append]
      have hpk : pk ≠ r := by
        intro hh
        rw [hh, hload] at hl
        cases hl
      rcases hx : alookup acc r with _ | v
      · simp [alookup, hpk]
      · rfl
    · rw [if_neg hl]
      exact ih acc r hload

/-- C8: partial-failure-tolerant startup of the Backend Registry.  For any
configured robot-to-driver mapping and any pattern of per-robot load outcomes:
a robot whose load succeeds (and that has a language mapping) is available
afterwards, regardless of which other robots failed to load; a robot whose
load fails is merely excluded from availability.  The second conjunct
instantiates the first at the source's configured mappings. -/
theorem partial_load_tolerance :
    (∀ (drivers : List (String × String)) (loadOk : String → Bool)
        (drv : String → DriverFn) (langmap : List (String × String))
        (robot_id path : String),
      (robot_id, path) ∈ drivers → loadOk robot_id = true →
      (alookup langmap robot_id).isSome = true →
      isRobotAvailable (loadDrivers drivers loadOk drv) langmap robot_id
        = true) ∧
    (∀ (loadOk : String → Bool) (drv : String → DriverFn)
        (robot_id path : String),
      (robot_id, path) ∈ robot_driver_map → loadOk robot_id = true →
      (alookup robot_language_map robot_id).isSome = true →
      isRobotAvailable (loadDrivers robot_driver_map loadOk drv)
        robot_language_map robot_id = true) ∧
    (∀ (drivers : List (String × String)) (loadOk : String → Bool)
        (drv : String → DriverFn) (langmap : List (String × String))
        (robot_id : String),
      loadOk robot_id = false →
      isRobotAvailable (loadDrivers drivers loadOk drv) langmap robot_id
        = false) := by
  have h1 : ∀ (drivers : List (String × String)) (loadOk : String → Bool)
      (drv : String → DriverFn) (langmap : List (String × String))
      (robot_id path : String),
      (robot_id, path) ∈ drivers → loadOk robot_id = true →
      (alookup langmap robot_id).isSome = true →
      isRobotAvailable (loadDrivers drivers loadOk drv) langmap robot_id
        = true := by
    intro drivers loadOk drv langmap robot_id path hmem hload hlang
    rw [isRobotAvailable, loadDrivers,
      loadDrivers_in loadOk drv drivers [] robot_id path hmem hload, hlang]
    rfl
  refine ⟨h1, fun loadOk drv robot_id path hmem hload hlang =>
    h1 robot_driver_map loadOk drv robot_language_map robot_id path hmem
      hload hlang, ?_⟩
  intro drivers loadOk drv langmap robot_id hload
  rw [isRobotAvailable, loadDrivers,
    loadDrivers_notin loadOk drv drivers [] robot_id hload]
  rfl

/-- Witness for C8: Ford's driver fails to load, Scion's succeeds; Scion is
available afterwards and Ford is not. -/
theorem partial_load_tolerance_witness :
    isRobotAvailable
        (loadDrivers robot_driver_map (fun r => r == "Scion")
          (fun _ => fordExecuteTask)) robot_language_map "Scion" = true ∧
    isRobotAvailable
        (loadDrivers robot_driver_map (fun r => r == "Scion")
          (fun _ => fordExecuteTask)) robot_language_map "Ford" = false :=
  ⟨partial_load_tolerance.2.1 (fun r => r == "Scion")
      (fun _ => fordExecuteTask) "Scion"
      "backend/assembly/drivers/scion_driver.so" (by decide) (by decide)
      (by decide),
    partial_load_tolerance.2.2 robot_driver_map (fun r => r == "Scion")
      (fun _ => fordExecuteTask) robot_language_map "Ford" (by decide)⟩

/-- C5: the execute contract.  (1) With no loaded driver for the robot the
call fails with the UnknownRobot error.  (2) With a driver and a configured
language outside {KRL, RAPID, KAREL, VAL3} it fails with the UnknownDialect
error.  (3) For each supported dialect the command is formatted as
`<DIALECT>_EXEC(<task>)`.  (4) Scenario: executing heavy_lifting on Ford,
configured with dialect KRL and backed by the reference executor, yields a
success response whose message contains `KRL_EXEC(heavy_lifting)`. -/
theorem execute_dialect_dispatch :
    (∀ (handles : List (String × DriverFn))
        (langmap : List (String × String)) (robot_id task_data : String),
      alookup handles robot_id = none →
      sendToRobot handles langmap robot_id task_data
        = .error (.noDriver robot_id)) ∧
    (∀ (handles : List (String × DriverFn))
        (langmap : List (String × String))
        (robot_id task_data : String) (exec : DriverFn) (language : String),
      alookup handles robot_id = some exec →
      alookup langmap robot_id = some language →
      language ≠ "KRL" → language ≠ "RAPID" → language ≠ "KAREL" →
      language ≠ "VAL3" →
      sendToRobot handles langmap robot_id task_data
        = .error (.unsupportedLanguage language)) ∧
    (∀ task_data : String,
      formatCommand "KRL" task_data
        = .ok ("KRL_EXEC(" ++ task_data ++ ")") ∧
      formatCommand "RAPID" task_data
        = .ok ("RAPID_EXEC(" ++ task_data ++ ")") ∧
      formatCommand "KAREL" task_data
        = .ok ("KAREL_EXEC(" ++ task_data ++ ")") ∧
      formatCommand "VAL3" task_data
        = .ok ("VAL3_EXEC(" ++ task_data ++ ")")) ∧
    (sendToRobot [("Ford", fordExecuteTask)] robot_language_map "Ford"
        "heavy_lifting"
      = .ok "KRL executed for Ford: KRL_EXEC(heavy_lifting)" ∧
      containsSub "KRL executed for Ford: KRL_EXEC(heavy_lifting)"
        "KRL_EXEC(heavy_lifting)") := by
  refine ⟨?_, ?_, ?_, ?_, ?_⟩
  · intro handles langmap robot_id task_data h
    simp [sendToRobot, h]
  · intro handles langmap robot_id task_data exec language hh hl h1 h2 h3 h4
    simp [sendToRobot, hh, hl, formatCommand, h1, h2, h3, h4]
  · intro task_data
    refine ⟨rfl, ?_, ?_, ?_⟩ <;> simp [formatCommand]
  · decide
  · exact ⟨"KRL executed for Ford: ", "", by decide⟩

/-- Witness for C5: a robot with no loaded driver is rejected as UnknownRobot,
and a configured but unsupported dialect is rejected as UnknownDialect. -/
theorem execute_dialect_dispatch_witness :
    sendToRobot [] robot_language_map "Scion" "x"
      = .error (.noDriver "Scion") ∧
    sendToRobot [("X", fordExecuteTask)] [("X", "COBOL")] "X" "x"
      = .error (.unsupportedLanguage "COBOL") :=
  ⟨execute_dialect_dispatch.1 [] robot_language_map "Scion" "x" rfl,
    execute_dialect_dispatch.2.1 [("X", fordExecuteTask)] [("X", "COBOL")]
      "X" "x" fordExecuteTask "COBOL" rfl rfl (by decide) (by decide)
      (by decide) (by decide)⟩
